import Mathlib

/-!
Shallow embedding of `core-p2p/src/service.rs`: the connection-lifecycle
`Service` (peer registry, listening-address set, pending reconnect queue),
its event translation (`event_handle`), the swarm polling loop
(`poll_swarm`), the command dispatcher (`handle_hook`) and the public
operation surface (`send_custom_message`, `broadcast`, `listen_on`, `dial`,
`drop_node`), together with theorems settling the specification claims.

The raw swarm and the application handle are external collaborators; they
are modelled at their interface boundary (event queue, connected-peer set,
command queues, event sink) as the specification describes them.
-/

/-- Peer identity: opaque, globally unique, comparable (`PeerId`). -/
abbrev PeerId := Nat

/-- One segment of a multiaddress: either an ordinary protocol segment or a
trailing `P2p` peer-identity segment (`Protocol::P2p`). -/
inductive MProtocol where
  | Other (n : Nat)
  | P2p (id : PeerId)
deriving DecidableEq

/-- Structured, appendable network address, compared by structural equality. -/
abbrev Multiaddr := List MProtocol

/-- Payload of a custom-protocol message (`Request` / `Response` body). -/
abbrev Payload := List Nat

/-- `Endpoint`: which side initiated a connection. -/
inductive Endpoint where
  | Dialer
  | Listener
deriving DecidableEq

/-- `NodeInfo`: connection metadata kept in the peer registry. -/
structure NodeInfo where
  endpoint : Endpoint
  address : Multiaddr
deriving DecidableEq

/-- Remote peer information carried by an identify completion
(public key plus the peer's reported listen addresses). -/
structure IdentifyInfo where
  public_key : Nat
  listen_addrs : List Multiaddr
deriving DecidableEq

/-- `CITAInEvent`: command sent into a per-connection handler. -/
inductive CITAInEvent where
  | SendCustomMessage (protocol : Nat) (data : Payload)
deriving DecidableEq

/-- `CITAOutEvent`: per-connection protocol events consumed by
`event_handle`.  The identification-request responder token is opaque. -/
inductive CITAOutEvent where
  | CustomProtocolOpen (protocol : Nat) (version : Nat)
  | CustomMessage (protocol : Nat) (data : Payload)
  | CustomProtocolClosed (protocol : Nat)
  | Useless
  | PingStart
  | PingSuccess (time : Nat)
  | IdentificationRequest (token : Nat)
  | Identified (info : IdentifyInfo) (observed_addr : Multiaddr)
deriving DecidableEq

/-- `ConnectedPoint`: how a connection was established. -/
inductive ConnectedPoint where
  | Dialer (address : Multiaddr)
  | Listener (send_back_addr : Multiaddr)
deriving DecidableEq

/-- `RawSwarmEvent`: low-level events reported by the raw swarm's poll. -/
inductive RawSwarmEvent where
  | Connected (peer_id : PeerId) (endpoint : ConnectedPoint)
  | NodeEvent (peer_id : PeerId) (event : CITAOutEvent)
  | NodeClosed (peer_id : PeerId)
  | NodeError (peer_id : PeerId) (error : Nat)
  | DialError (multiaddr : Multiaddr) (error : Nat)
  | UnknownPeerDialError (multiaddr : Multiaddr) (error : Nat)
  | IncomingConnection (send_back_addr : Multiaddr)
  | IncomingConnectionError (send_back_addr : Multiaddr) (error : Nat)
  | Replaced (peer_id : PeerId)
  | ListenerClosed (listen_addr : Multiaddr)
deriving DecidableEq

/-- `ServiceEvent`: the application-event vocabulary surfaced to the handle. -/
inductive ServiceEvent where
  | NodeClosed (id : PeerId)
  | CustomProtocolOpen (id : PeerId) (protocol : Nat) (version : Nat)
  | CustomProtocolClosed (id : PeerId) (protocol : Nat)
  | CustomMessage (id : PeerId) (protocol : Nat) (data : Payload)
  | NodeInfo (id : PeerId) (listen_address : List Multiaddr)
deriving DecidableEq

/-- Lookup in the peer registry, modelling `HashMap::get`. -/
def mapLookup : List (PeerId × NodeInfo) → PeerId → Option NodeInfo
  | [], _ => none
  | e :: rest, k => if e.1 = k then some e.2 else mapLookup rest k

/-- Insert-or-replace in the peer registry, modelling `HashMap::insert`. -/
def mapInsert : List (PeerId × NodeInfo) → PeerId → NodeInfo → List (PeerId × NodeInfo)
  | [], k, v => [(k, v)]
  | e :: rest, k, v => if e.1 = k then (k, v) :: rest else e :: mapInsert rest k v

/-- Removal from the peer registry, modelling `HashMap::remove`: afterwards
no entry with the key remains. -/
def mapRemove : List (PeerId × NodeInfo) → PeerId → List (PeerId × NodeInfo)
  | [], _ => []
  | e :: rest, k => if e.1 = k then mapRemove rest k else e :: mapRemove rest k

/-- Number of registry entries carrying a given key. -/
def regCount : List (PeerId × NodeInfo) → PeerId → Nat
  | [], _ => 0
  | e :: rest, k => (if e.1 = k then 1 else 0) + regCount rest k

/-- Membership test on a list of peer identities. -/
def peersContains : List PeerId → PeerId → Bool
  | [], _ => false
  | q :: rest, p => if q = p then true else peersContains rest p

/-- Remove a peer identity from a list of peer identities. -/
def peersRemove : List PeerId → PeerId → List PeerId
  | [], _ => []
  | q :: rest, p => if q = p then peersRemove rest p else q :: peersRemove rest p

/-- Add a peer identity if not already present. -/
def peersAdd (l : List PeerId) (p : PeerId) : List PeerId :=
  if peersContains l p then l else l ++ [p]

/-- Membership test on a list of multiaddresses (structural equality). -/
def addrMem : List Multiaddr → Multiaddr → Bool
  | [], _ => false
  | a :: rest, b => if a = b then true else addrMem rest b

/-- Modelled from the spec: the raw connection multiplexer (`RawSwarm`) at
its interface boundary.  `pending` is the ordered queue of events its poll
will report; `connected` the peers it currently reports as connected
(established); `dialFail` and `listenResult` the immediate outcomes of dial
and listen submissions; `nat` the NAT-traversal candidate derivation;
`dials`, `listeners` and `sent` record submitted dials, bound listeners and
events enqueued on live connections. -/
structure RawSwarm where
  pending : List RawSwarmEvent
  connected : List PeerId
  dialFail : Multiaddr → Bool
  listenResult : Multiaddr → Option Multiaddr
  nat : Multiaddr → List Multiaddr
  dials : List Multiaddr
  listeners : List Multiaddr
  sent : List (PeerId × CITAInEvent)

/-- Modelled from the spec: enqueue an event on one live connection
(`PeerConnected::send_event`). -/
def RawSwarm.send_event (sw : RawSwarm) (p : PeerId) (ev : CITAInEvent) : RawSwarm :=
  { sw with sent := sw.sent ++ [(p, ev)] }

/-- Modelled from the spec: enqueue an event on every live connection
(`RawSwarm::broadcast_event`). -/
def RawSwarm.broadcast_event (sw : RawSwarm) (ev : CITAInEvent) : RawSwarm :=
  { sw with sent := sw.sent ++ sw.connected.map (fun p => (p, ev)) }

/-- Modelled from the spec: closing a live connection
(`PeerConnected::close`) drops it from the connected set; the multiplexer
later reports the closure as a raw closed event, so that an explicit
disconnect yields exactly one terminal notification (spec 4.1). -/
def RawSwarm.close (sw : RawSwarm) (p : PeerId) : RawSwarm :=
  { sw with connected := peersRemove sw.connected p
          , pending := sw.pending ++ [RawSwarmEvent.NodeClosed p] }

/-- Modelled from the spec: immediate outcome of a dial submission
(`RawSwarm::dial`); failure returns the address unchanged. -/
def RawSwarm.dial (sw : RawSwarm) (addr : Multiaddr) : Except Multiaddr Unit × RawSwarm :=
  if sw.dialFail addr then (Except.error addr, sw)
  else (Except.ok (), { sw with dials := sw.dials ++ [addr] })

/-- Modelled from the spec: immediate outcome of a listen submission
(`RawSwarm::listen_on`); success returns the bound address. -/
def RawSwarm.listen_on (sw : RawSwarm) (addr : Multiaddr) :
    Except Multiaddr Multiaddr × RawSwarm :=
  match sw.listenResult addr with
  | some bound => (Except.ok bound, { sw with listeners := sw.listeners ++ [bound] })
  | none => (Except.error addr, sw)

/-- Modelled from the spec: dequeue one reported event, keeping the
swarm's own view of connected peers in step with what it reported. -/
def RawSwarm.dequeue (sw : RawSwarm) (ev : RawSwarmEvent) (rest : List RawSwarmEvent) :
    RawSwarm :=
  let sw := { sw with pending := rest }
  match ev with
  | RawSwarmEvent.Connected p _ => { sw with connected := peersAdd sw.connected p }
  | RawSwarmEvent.NodeClosed p => { sw with connected := peersRemove sw.connected p }
  | RawSwarmEvent.NodeError p _ => { sw with connected := peersRemove sw.connected p }
  | _ => sw

/-- The application handle (`ServiceHandle`) at its capability interface:
queues of pending dial, listen, disconnect and send commands, and the sink
of delivered application events (`out_event` appends to `out`). -/
structure Handle where
  dialers : List Multiaddr
  listens : List Multiaddr
  disconnects : List PeerId
  sends : List (Option PeerId × Nat × Payload)
  out : List (Option ServiceEvent)

/-- `ServiceHandle::out_event`: deliver one event to the handle sink. -/
def Handle.out_event (h : Handle) (v : Option ServiceEvent) : Handle :=
  { h with out := h.out ++ [v] }

/-- The `Service`: swarm, local identity, listening-address set, peer
registry (`connected_nodes`), pending reconnect queue (`need_connect`) and
the application handle.  `identify_responses` is the output channel of
`responder.respond` (public key, listen addresses, requester's address). -/
structure Service where
  swarm : RawSwarm
  local_public_key : Nat
  local_peer_id : PeerId
  listening_address : List Multiaddr
  connected_nodes : List (PeerId × NodeInfo)
  need_connect : List Multiaddr
  service_handle : Handle
  identify_responses : List (Nat × List Multiaddr × Multiaddr)

/-- `Service::send_custom_message`: if the peer has a live connection,
enqueue the payload on it; otherwise only a debug log (no state change). -/
def Service.send_custom_message (s : Service) (node : PeerId) (protocol : Nat)
    (data : Payload) : Service :=
  if peersContains s.swarm.connected node then
    { s with swarm := s.swarm.send_event node (CITAInEvent.SendCustomMessage protocol data) }
  else s

/-- `Service::broadcast`: enqueue the payload on every live connection. -/
def Service.broadcast (s : Service) (protocol : Nat) (data : Payload) : Service :=
  { s with swarm := s.swarm.broadcast_event (CITAInEvent.SendCustomMessage protocol data) }

/-- `Service::listen_on`: listen via the swarm; on success append the local
peer identity to the bound address before returning it. -/
def Service.listen_on (s : Service) (addr : Multiaddr) :
    Except Multiaddr Multiaddr × Service :=
  match s.swarm.listen_on addr with
  | (Except.ok bound, sw) =>
      (Except.ok (bound ++ [MProtocol.P2p s.local_peer_id]), { s with swarm := sw })
  | (Except.error a, sw) => (Except.error a, { s with swarm := sw })

/-- `Service::dial`: submit the address to the swarm with a fresh handler. -/
def Service.dial (s : Service) (addr : Multiaddr) : Except Multiaddr Unit × Service :=
  match s.swarm.dial addr with
  | (r, sw) => (r, { s with swarm := sw })

/-- `Service::drop_node`: remove the registry entry, then close the live
connection if the swarm reports one. -/
def Service.drop_node (s : Service) (id : PeerId) : Service :=
  let s := { s with connected_nodes := mapRemove s.connected_nodes id }
  if peersContains s.swarm.connected id then { s with swarm := s.swarm.close id } else s

/-- `while let Some(address) = new_dialer()` loop of `handle_hook`: each
address is dialled; on immediate failure it is pushed onto `need_connect`. -/
def Service.dialLoop : Service → List Multiaddr → Service
  | s, [] => s
  | s, address :: rest =>
      match s.swarm.dial address with
      | (Except.error address, sw) =>
          Service.dialLoop
            { s with swarm := sw, need_connect := s.need_connect ++ [address] } rest
      | (Except.ok _, sw) => Service.dialLoop { s with swarm := sw } rest

/-- `while let Some(address) = new_listen()` loop of `handle_hook`: each
successful bind result is appended to the listening-address set. -/
def Service.listenLoop : Service → List Multiaddr → Service
  | s, [] => s
  | s, address :: rest =>
      match s.swarm.listen_on address with
      | (Except.ok address, sw) =>
          Service.listenLoop
            { s with swarm := sw
                   , listening_address := s.listening_address ++ [address] } rest
      | (Except.error _, sw) => Service.listenLoop { s with swarm := sw } rest

/-- `while let Some(id) = disconnect()` loop of `handle_hook`. -/
def Service.disconnectLoop : Service → List PeerId → Service
  | s, [] => s
  | s, id :: rest => Service.disconnectLoop (s.drop_node id) rest

/-- `send_message()` batch dispatch of `handle_hook`: a targeted entry goes
to `send_custom_message`, an untargeted one to `broadcast`. -/
def Service.sendLoop : Service → List (Option PeerId × Nat × Payload) → Service
  | s, [] => s
  | s, (some id, protocol, data) :: rest =>
      Service.sendLoop (s.send_custom_message id protocol data) rest
  | s, (none, protocol, data) :: rest => Service.sendLoop (s.broadcast protocol data) rest

/-- `Service::handle_hook`: drain the handle's dial, listen, disconnect and
send commands, in that fixed order. -/
def Service.handle_hook (s : Service) : Service :=
  let ds := s.service_handle.dialers
  let s := { s with service_handle := { s.service_handle with dialers := [] } }
  let s := s.dialLoop ds
  let ls := s.service_handle.listens
  let s := { s with service_handle := { s.service_handle with listens := [] } }
  let s := s.listenLoop ls
  let qs := s.service_handle.disconnects
  let s := { s with service_handle := { s.service_handle with disconnects := [] } }
  let s := s.disconnectLoop qs
  let ms := s.service_handle.sends
  let s := { s with service_handle := { s.service_handle with sends := [] } }
  s.sendLoop ms

/-- `Service::respond_to_identify_request`: if the requester has a registry
entry, respond with the local public key, the full listening-address set
and the requester's recorded address; otherwise silently ignore. -/
def Service.respond_to_identify_request (s : Service) (requester : PeerId) : Service :=
  match mapLookup s.connected_nodes requester with
  | some info =>
      { s with identify_responses :=
          s.identify_responses ++ [(s.local_public_key, s.listening_address, info.address)] }
  | none => s

/-- Loop body of `add_observed_addr` over the NAT-traversal candidates:
candidates already present (structural equality) are skipped, the rest are
appended.  The source also appends the local identity to a local copy of
the candidate after the push and discards it; that step has no effect on
the state and is flagged in the spec as unresolved author intent. -/
def Service.natLoop : Service → List Multiaddr → Service
  | s, [] => s
  | s, addr :: rest =>
      if addrMem s.listening_address addr then Service.natLoop s rest
      else Service.natLoop { s with listening_address := s.listening_address ++ [addr] } rest

/-- `Service::add_observed_addr`: fold the NAT-traversal candidates of an
observed address into the listening-address set with de-duplication. -/
def Service.add_observed_addr (s : Service) (address : Multiaddr) : Service :=
  s.natLoop (s.swarm.nat address)

/-- `Service::event_handle`: translate one per-connection protocol event,
given the owning peer identity, into at most one application event,
updating state as a side effect. -/
def Service.event_handle (s : Service) (peer_id : PeerId) (event : CITAOutEvent) :
    Option ServiceEvent × Service :=
  match event with
  | CITAOutEvent.CustomProtocolOpen protocol version =>
      (some (ServiceEvent.CustomProtocolOpen peer_id protocol version), s)
  | CITAOutEvent.CustomMessage protocol data =>
      (some (ServiceEvent.CustomMessage peer_id protocol data), s)
  | CITAOutEvent.CustomProtocolClosed protocol =>
      (some (ServiceEvent.CustomProtocolClosed peer_id protocol), s)
  | CITAOutEvent.Useless =>
      (some (ServiceEvent.NodeClosed peer_id),
       { s with connected_nodes := mapRemove s.connected_nodes peer_id })
  | CITAOutEvent.PingStart => (none, s)
  | CITAOutEvent.PingSuccess _ => (none, s)
  | CITAOutEvent.IdentificationRequest _ =>
      (none, s.respond_to_identify_request peer_id)
  | CITAOutEvent.Identified info observed_addr =>
      let s := s.add_observed_addr observed_addr
      (some (ServiceEvent.NodeInfo peer_id info.listen_addrs), s)

/-- Registry entry recorded at connection time (lines 256-263 of the
source): a dialer endpoint records the dialled address, a listener endpoint
the send-back address. -/
def connectedInfo : ConnectedPoint → NodeInfo
  | ConnectedPoint.Dialer address => { endpoint := Endpoint.Dialer, address := address }
  | ConnectedPoint.Listener send_back_addr =>
      { endpoint := Endpoint.Listener, address := send_back_addr }

/-- The `loop` of `Service::poll_swarm`, structurally recursive over the
swarm's pending event queue: raw events are dispatched exactly as in the
source, translatable node events end the loop with the translated event,
the rest continue. -/
def Service.poll_swarm_aux : Service → List RawSwarmEvent → Option ServiceEvent × Service
  | s, [] => (none, s)
  | s, ev :: rest =>
      let s := { s with swarm := s.swarm.dequeue ev rest }
      match ev with
      | RawSwarmEvent.Connected peer_id endpoint =>
          Service.poll_swarm_aux
            { s with connected_nodes :=
                mapInsert s.connected_nodes peer_id (connectedInfo endpoint) } rest
      | RawSwarmEvent.NodeEvent peer_id event =>
          match s.event_handle peer_id event with
          | (some out, s) => (some out, s)
          | (none, s) => Service.poll_swarm_aux s rest
      | RawSwarmEvent.NodeClosed peer_id =>
          (some (ServiceEvent.NodeClosed peer_id),
           { s with connected_nodes := mapRemove s.connected_nodes peer_id })
      | RawSwarmEvent.NodeError peer_id _ =>
          (some (ServiceEvent.NodeClosed peer_id),
           { s with connected_nodes := mapRemove s.connected_nodes peer_id })
      | RawSwarmEvent.DialError multiaddr _ =>
          Service.poll_swarm_aux
            { s with need_connect := s.need_connect ++ [multiaddr] } rest
      | RawSwarmEvent.UnknownPeerDialError multiaddr _ =>
          Service.poll_swarm_aux
            { s with need_connect := s.need_connect ++ [multiaddr] } rest
      | RawSwarmEvent.IncomingConnection _ => Service.poll_swarm_aux s rest
      | RawSwarmEvent.IncomingConnectionError _ _ => Service.poll_swarm_aux s rest
      | RawSwarmEvent.Replaced peer_id =>
          match mapLookup s.connected_nodes peer_id with
          | some info =>
              let s := { s with connected_nodes := mapRemove s.connected_nodes peer_id }
              let s := match info.endpoint with
                | Endpoint.Listener => s
                | Endpoint.Dialer =>
                    { s with need_connect := s.need_connect ++ [info.address] }
              Service.poll_swarm_aux s rest
          | none => Service.poll_swarm_aux s rest
      | RawSwarmEvent.ListenerClosed _ => Service.poll_swarm_aux s rest

/-- `Service::poll_swarm`: `none` stands for `Async::NotReady`, `some e`
for `Async::Ready(Some(e))`. -/
def Service.poll_swarm (s : Service) : Option ServiceEvent × Service :=
  Service.poll_swarm_aux s s.swarm.pending

/-- `<Service as Stream>::poll`: if the swarm yields an event, deliver it
to the handle sink and report progress; otherwise poll the handle (its
result is ignored and its opaque internal progress is outside the model),
run `handle_hook`, and report no progress. -/
def Service.poll (s : Service) : Bool × Service :=
  match s.poll_swarm with
  | (some value, s) =>
      (true, { s with service_handle := s.service_handle.out_event (some value) })
  | (none, s) => (false, s.handle_hook)

/-- Keep-alive raw events: ping start / ping success node events, the ones
the translation intentionally maps to no application event. -/
def isKeepAlive : RawSwarmEvent → Bool
  | RawSwarmEvent.NodeEvent _ CITAOutEvent.PingStart => true
  | RawSwarmEvent.NodeEvent _ (CITAOutEvent.PingSuccess _) => true
  | _ => false

/-- A concrete swarm state used to instantiate theorems with hypotheses:
peer `1` is connected, dials always succeed, listens bind the requested
address, NAT traversal returns the observed address itself. -/
def sampleSwarm : RawSwarm :=
  { pending := []
  , connected := [1]
  , dialFail := fun _ => false
  , listenResult := fun a => some a
  , nat := fun a => [a]
  , dials := []
  , listeners := []
  , sent := [] }

/-- A concrete service state: peer `1` registered as a dialer at address
`[Other 4]`, everything else empty. -/
def sampleService : Service :=
  { swarm := sampleSwarm
  , local_public_key := 5
  , local_peer_id := 0
  , listening_address := []
  , connected_nodes := [(1, { endpoint := Endpoint.Dialer, address := [MProtocol.Other 4] })]
  , need_connect := []
  , service_handle := { dialers := [], listens := [], disconnects := [], sends := [], out := [] }
  , identify_responses := [] }

/-- A concrete service whose listening-address set already holds the very
address the handle asks to listen on. -/
def dupListenService : Service :=
  { swarm := sampleSwarm
  , local_public_key := 5
  , local_peer_id := 0
  , listening_address := [[MProtocol.Other 1]]
  , connected_nodes := []
  , need_connect := []
  , service_handle :=
      { dialers := [], listens := [[MProtocol.Other 1]], disconnects := [], sends := [], out := [] }
  , identify_responses := [] }

theorem mapRemove_idem (m : List (PeerId × NodeInfo)) (k : PeerId) :
    mapRemove (mapRemove m k) k = mapRemove m k := by
  induction m with
  | nil => rfl
  | cons e rest ih =>
      by_cases h : e.1 = k <;> simp [mapRemove, h, ih]

theorem mapRemove_of_lookup_none (m : List (PeerId × NodeInfo)) (k : PeerId)
    (h : mapLookup m k = none) : mapRemove m k = m := by
  induction m with
  | nil => rfl
  | cons e rest ih =>
      by_cases he : e.1 = k
      · simp [mapLookup, he] at h
      · simp [mapLookup, he] at h
        simp [mapRemove, he, ih h]

theorem regCount_mapRemove_self (m : List (PeerId × NodeInfo)) (k : PeerId) :
    regCount (mapRemove m k) k = 0 := by
  induction m with
  | nil => rfl
  | cons e rest ih =>
      by_cases h : e.1 = k <;> simp [mapRemove, regCount, h, ih]

theorem length_mapRemove_add_regCount (m : List (PeerId × NodeInfo)) (k : PeerId) :
    (mapRemove m k).length + regCount m k = m.length := by
  induction m with
  | nil => rfl
  | cons e rest ih =>
      by_cases h : e.1 = k
      · simp [mapRemove, regCount, h, Nat.add_comm, Nat.add_left_comm] at ih ⊢
        omega
      · simp [mapRemove, regCount, h] at ih ⊢
        omega

theorem regCount_eq_zero_of_lookup_none (m : List (PeerId × NodeInfo)) (k : PeerId)
    (h : mapLookup m k = none) : regCount m k = 0 := by
  induction m with
  | nil => rfl
  | cons e rest ih =>
      by_cases he : e.1 = k
      · simp [mapLookup, he] at h
      · simp [mapLookup, he] at h
        simp [regCount, he, ih h]

theorem mapInsert_lookup_self (m : List (PeerId × NodeInfo)) (k : PeerId) (v : NodeInfo) :
    mapLookup (mapInsert m k v) k = some v := by
  induction m with
  | nil => simp [mapInsert, mapLookup]
  | cons e rest ih =>
      by_cases h : e.1 = k <;> simp [mapInsert, mapLookup, h, ih]

theorem length_mapInsert_of_lookup_none (m : List (PeerId × NodeInfo)) (k : PeerId)
    (v : NodeInfo) (h : mapLookup m k = none) :
    (mapInsert m k v).length = m.length + 1 := by
  induction m with
  | nil => simp [mapInsert]
  | cons e rest ih =>
      by_cases he : e.1 = k
      · simp [mapLookup, he] at h
      · simp [mapLookup, he] at h
        simp [mapInsert, he, ih h]

theorem regCount_mapInsert_of_lookup_none (m : List (PeerId × NodeInfo)) (k : PeerId)
    (v : NodeInfo) (h : mapLookup m k = none) :
    regCount (mapInsert m k v) k = 1 := by
  induction m with
  | nil => simp [mapInsert, regCount]
  | cons e rest ih =>
      by_cases he : e.1 = k
      · simp [mapLookup, he] at h
      · simp [mapLookup, he] at h
        simp [mapInsert, regCount, he, ih h]

theorem peersContains_peersRemove_self (l : List PeerId) (p : PeerId) :
    peersContains (peersRemove l p) p = false := by
  induction l with
  | nil => rfl
  | cons q rest ih =>
      by_cases h : q = p <;> simp [peersRemove, peersContains, h, ih]

theorem addrMem_iff (l : List Multiaddr) (a : Multiaddr) :
    addrMem l a = true ↔ a ∈ l := by
  induction l with
  | nil => simp [addrMem]
  | cons b rest ih =>
      by_cases h : b = a
      · simp [addrMem, h]
      · simp [addrMem, h, ih]
        intro hab
        exact (h hab.symm).elim

/-- Claim C4: the event translator `event_handle` is total over the
per-connection protocol event variants and maps each one, given the owning
peer identity, exactly as prescribed: protocol opened to
`CustomProtocolOpen`, message received to `CustomMessage` with peer,
protocol id and payload unchanged, protocol closed to
`CustomProtocolClosed`, handler-became-useless to `NodeClosed` with the
registry entry removed, ping start/success to none, identify request to
none delegated to the responder, and identify completion to `NodeInfo`
whose listen addresses are the remote peer's reported addresses. -/
theorem c4_event_handle_total (s : Service) (p : PeerId) (protocol version time token : Nat)
    (data : Payload) (info : IdentifyInfo) (observed : Multiaddr) :
    s.event_handle p (CITAOutEvent.CustomProtocolOpen protocol version)
      = (some (ServiceEvent.CustomProtocolOpen p protocol version), s)
  ∧ s.event_handle p (CITAOutEvent.CustomMessage protocol data)
      = (some (ServiceEvent.CustomMessage p protocol data), s)
  ∧ s.event_handle p (CITAOutEvent.CustomProtocolClosed protocol)
      = (some (ServiceEvent.CustomProtocolClosed p protocol), s)
  ∧ s.event_handle p CITAOutEvent.Useless
      = (some (ServiceEvent.NodeClosed p),
         { s with connected_nodes := mapRemove s.connected_nodes p })
  ∧ s.event_handle p CITAOutEvent.PingStart = (none, s)
  ∧ s.event_handle p (CITAOutEvent.PingSuccess time) = (none, s)
  ∧ s.event_handle p (CITAOutEvent.IdentificationRequest token)
      = (none, s.respond_to_identify_request p)
  ∧ s.event_handle p (CITAOutEvent.Identified info observed)
      = (some (ServiceEvent.NodeInfo p info.listen_addrs), s.add_observed_addr observed) :=
  ⟨rfl, rfl, rfl, rfl, rfl, rfl, rfl, rfl⟩

/-- Claim C9: sending to a peer with no live connection is a complete
no-op (no enqueue, no event, no failure, all state unchanged); sending to
a connected peer enqueues exactly the payload on that connection. -/
theorem c9_send_custom_message (s : Service) (p : PeerId) (protocol : Nat) (data : Payload) :
    (peersContains s.swarm.connected p = false →
       s.send_custom_message p protocol data = s)
  ∧ (peersContains s.swarm.connected p = true →
       s.send_custom_message p protocol data =
         { s with swarm := { s.swarm with sent :=
             s.swarm.sent ++ [(p, CITAInEvent.SendCustomMessage protocol data)] } }) := by
  constructor
  · intro h
    simp [Service.send_custom_message, h]
  · intro h
    simp [Service.send_custom_message, h, RawSwarm.send_event]

/-- Witness for C9 at a concrete state: peer 2 is not connected (no-op),
peer 1 is connected (payload enqueued). -/
theorem c9_send_custom_message_witness :
    Service.send_custom_message sampleService 2 7 [1, 2, 3] = sampleService
  ∧ Service.send_custom_message sampleService 1 7 [1, 2, 3] =
      { sampleService with swarm := { sampleService.swarm with sent :=
          sampleService.swarm.sent ++ [(1, CITAInEvent.SendCustomMessage 7 [1, 2, 3])] } } :=
  ⟨(c9_send_custom_message sampleService 2 7 [1, 2, 3]).1 rfl,
   (c9_send_custom_message sampleService 1 7 [1, 2, 3]).2 rfl⟩

/-- Claim C10: `drop_node` is idempotent, and on a peer with no registry
entry and no live connection it is a no-op. -/
theorem c10_drop_node_idempotent (s : Service) (p : PeerId) :
    (s.drop_node p).drop_node p = s.drop_node p
  ∧ (mapLookup s.connected_nodes p = none → peersContains s.swarm.connected p = false →
       s.drop_node p = s) := by
  constructor
  · by_cases h : peersContains s.swarm.connected p = true
    · simp [Service.drop_node, h, RawSwarm.close, peersContains_peersRemove_self,
        mapRemove_idem]
    · rw [Bool.not_eq_true] at h
      simp [Service.drop_node, h, mapRemove_idem]
  · intro h1 h2
    simp [Service.drop_node, h2, mapRemove_of_lookup_none _ _ h1]

/-- Witness for C10 at a concrete state: double drop of connected peer 1
equals a single drop, and dropping absent peer 9 changes nothing. -/
theorem c10_drop_node_idempotent_witness :
    Service.drop_node (Service.drop_node sampleService 1) 1 = Service.drop_node sampleService 1
  ∧ Service.drop_node sampleService 9 = sampleService :=
  ⟨(c10_drop_node_idempotent sampleService 1).1,
   (c10_drop_node_idempotent sampleService 9).2 rfl rfl⟩

/-- Claim C7: an identify request from a peer absent from the registry is
silently ignored (state unchanged, no failure); for a registered peer the
response carries exactly the local public key, the full current
listening-address set and the requester's recorded address. -/
theorem c7_identify_respond (s : Service) (p : PeerId) :
    (mapLookup s.connected_nodes p = none → s.respond_to_identify_request p = s)
  ∧ (∀ info, mapLookup s.connected_nodes p = some info →
       s.respond_to_identify_request p =
         { s with identify_responses := s.identify_responses ++
             [(s.local_public_key, s.listening_address, info.address)] }) := by
  constructor
  · intro h
    simp [Service.respond_to_identify_request, h]
  · intro info h
    simp [Service.respond_to_identify_request, h]

/-- Witness for C7 at a concrete state: peer 9 is unregistered (ignored),
peer 1 is registered (response sent with its recorded address). -/
theorem c7_identify_respond_witness :
    Service.respond_to_identify_request sampleService 9 = sampleService
  ∧ Service.respond_to_identify_request sampleService 1 =
      { sampleService with identify_responses := sampleService.identify_responses ++
          [(sampleService.local_public_key, sampleService.listening_address,
            [MProtocol.Other 4])] } :=
  ⟨(c7_identify_respond sampleService 9).1 rfl,
   (c7_identify_respond sampleService 1).2
     { endpoint := Endpoint.Dialer, address := [MProtocol.Other 4] } rfl⟩

theorem dialLoop_spec (addrs : List Multiaddr) : ∀ s : Service,
    (s.dialLoop addrs).need_connect
        = s.need_connect ++ addrs.filter (fun x => s.swarm.dialFail x)
    ∧ (s.dialLoop addrs).connected_nodes = s.connected_nodes
    ∧ (s.dialLoop addrs).service_handle = s.service_handle := by
  induction addrs with
  | nil => intro s; simp [Service.dialLoop]
  | cons a rest ih =>
      intro s
      by_cases h : s.swarm.dialFail a = true
      · have := ih { s with need_connect := s.need_connect ++ [a] }
        simp [Service.dialLoop, RawSwarm.dial, h] at this ⊢
        simp [this]
      · rw [Bool.not_eq_true] at h
        have := ih { s with swarm := { s.swarm with dials := s.swarm.dials ++ [a] } }
        simp [Service.dialLoop, RawSwarm.dial, h] at this ⊢
        simp [this]

theorem drop_node_connected_nodes (s : Service) (p : PeerId) :
    (s.drop_node p).connected_nodes = mapRemove s.connected_nodes p := by
  by_cases h : peersContains s.swarm.connected p = true
  · simp [Service.drop_node, h]
  · rw [Bool.not_eq_true] at h
    simp [Service.drop_node, h]

/-- Claim C8: every dial failure — a raw dial-error event, a raw
unknown-peer dial-error event, or an immediate submission failure in the
command dispatcher's dial loop — appends the target address to the pending
reconnect queue, removes no registry entry and emits no application
event. -/
theorem c8_dial_failures (s : Service) (a : Multiaddr) (err : Nat) (addrs : List Multiaddr) :
    Service.poll_swarm
        { s with swarm := { s.swarm with pending := [RawSwarmEvent.DialError a err] } }
      = (none,
         { s with swarm := { s.swarm with pending := [] }
                , need_connect := s.need_connect ++ [a] })
  ∧ Service.poll_swarm
        { s with swarm := { s.swarm with pending := [RawSwarmEvent.UnknownPeerDialError a err] } }
      = (none,
         { s with swarm := { s.swarm with pending := [] }
                , need_connect := s.need_connect ++ [a] })
  ∧ ((s.dialLoop addrs).need_connect
        = s.need_connect ++ addrs.filter (fun x => s.swarm.dialFail x)
     ∧ (s.dialLoop addrs).connected_nodes = s.connected_nodes
     ∧ (s.dialLoop addrs).service_handle = s.service_handle) :=
  ⟨rfl, rfl, dialLoop_spec addrs s⟩

/-- Claim C5: a raw replaced event for a registered peer removes the old
registry entry, appends its recorded address to the pending reconnect
queue exactly when its role was dialer, and emits no application event. -/
theorem c5_replaced (s : Service) (p : PeerId) (info : NodeInfo)
    (h : mapLookup s.connected_nodes p = some info) :
    Service.poll_swarm
        { s with swarm := { s.swarm with pending := [RawSwarmEvent.Replaced p] } }
      = (none,
         { s with swarm := { s.swarm with pending := [] }
                , connected_nodes := mapRemove s.connected_nodes p
                , need_connect :=
                    match info.endpoint with
                    | Endpoint.Dialer => s.need_connect ++ [info.address]
                    | Endpoint.Listener => s.need_connect }) := by
  obtain ⟨ep, addr⟩ := info
  cases ep <;>
    simp [Service.poll_swarm, Service.poll_swarm_aux, RawSwarm.dequeue, h]

/-- Witness for C5 at a concrete state: peer 1 is registered as a dialer,
so its replacement queues its recorded address for reconnection. -/
theorem c5_replaced_witness :
    Service.poll_swarm
        { sampleService with swarm :=
            { sampleService.swarm with pending := [RawSwarmEvent.Replaced 1] } }
      = (none,
         { sampleService with
             swarm := { sampleService.swarm with pending := [] }
             , connected_nodes := mapRemove sampleService.connected_nodes 1
             , need_connect :=
                 match (NodeInfo.mk Endpoint.Dialer [MProtocol.Other 4]).endpoint with
                 | Endpoint.Dialer =>
                     sampleService.need_connect
                       ++ [(NodeInfo.mk Endpoint.Dialer [MProtocol.Other 4]).address]
                 | Endpoint.Listener => sampleService.need_connect }) :=
  c5_replaced sampleService 1 (NodeInfo.mk Endpoint.Dialer [MProtocol.Other 4]) rfl

/-- Claim C2: a raw connected event for an absent peer grows the registry
by exactly one entry, recording the role and address seen at connection
time, and that entry exists exactly once; a raw closed event, a raw error
event, or an explicit drop for a peer present (exactly once, as the map
keeps unique keys) shrinks the registry by exactly one and leaves no entry
for the peer; for an absent peer the removal paths leave the registry
unchanged, so its size never underflows. -/
theorem c2_registry_size (s : Service) (p : PeerId) (cp : ConnectedPoint) (err : Nat) :
    (mapLookup s.connected_nodes p = none →
       ((Service.poll_swarm { s with swarm :=
            { s.swarm with pending := [RawSwarmEvent.Connected p cp] } }).2.connected_nodes.length
           = s.connected_nodes.length + 1
        ∧ mapLookup (Service.poll_swarm { s with swarm :=
            { s.swarm with pending := [RawSwarmEvent.Connected p cp] } }).2.connected_nodes p
           = some (connectedInfo cp)
        ∧ regCount (Service.poll_swarm { s with swarm :=
            { s.swarm with pending := [RawSwarmEvent.Connected p cp] } }).2.connected_nodes p = 1))
  ∧ (regCount s.connected_nodes p = 1 →
       ((Service.poll_swarm { s with swarm :=
            { s.swarm with pending := [RawSwarmEvent.NodeClosed p] } }).2.connected_nodes.length + 1
           = s.connected_nodes.length
        ∧ regCount (Service.poll_swarm { s with swarm :=
            { s.swarm with pending := [RawSwarmEvent.NodeClosed p] } }).2.connected_nodes p = 0))
  ∧ (regCount s.connected_nodes p = 1 →
       ((Service.poll_swarm { s with swarm :=
            { s.swarm with pending := [RawSwarmEvent.NodeError p err] } }).2.connected_nodes.length + 1
           = s.connected_nodes.length
        ∧ regCount (Service.poll_swarm { s with swarm :=
            { s.swarm with pending := [RawSwarmEvent.NodeError p err] } }).2.connected_nodes p = 0))
  ∧ (regCount s.connected_nodes p = 1 →
       ((s.drop_node p).connected_nodes.length + 1 = s.connected_nodes.length
        ∧ regCount (s.drop_node p).connected_nodes p = 0))
  ∧ (mapLookup s.connected_nodes p = none →
       ((Service.poll_swarm { s with swarm :=
            { s.swarm with pending := [RawSwarmEvent.NodeClosed p] } }).2.connected_nodes
           = s.connected_nodes
        ∧ (Service.poll_swarm { s with swarm :=
            { s.swarm with pending := [RawSwarmEvent.NodeError p err] } }).2.connected_nodes
           = s.connected_nodes
        ∧ (s.drop_node p).connected_nodes = s.connected_nodes)) := by
  have hrem : ∀ h1 : regCount s.connected_nodes p = 1,
      (mapRemove s.connected_nodes p).length + 1 = s.connected_nodes.length
      ∧ regCount (mapRemove s.connected_nodes p) p = 0 := by
    intro h1
    have h2 := length_mapRemove_add_regCount s.connected_nodes p
    rw [h1] at h2
    exact ⟨h2, regCount_mapRemove_self s.connected_nodes p⟩
  refine ⟨?_, ?_, ?_, ?_, ?_⟩
  · intro h
    refine ⟨?_, ?_, ?_⟩
    · simpa [Service.poll_swarm, Service.poll_swarm_aux, RawSwarm.dequeue] using
        length_mapInsert_of_lookup_none s.connected_nodes p (connectedInfo cp) h
    · simpa [Service.poll_swarm, Service.poll_swarm_aux, RawSwarm.dequeue] using
        mapInsert_lookup_self s.connected_nodes p (connectedInfo cp)
    · simpa [Service.poll_swarm, Service.poll_swarm_aux, RawSwarm.dequeue] using
        regCount_mapInsert_of_lookup_none s.connected_nodes p (connectedInfo cp) h
  · intro h1
    simpa [Service.poll_swarm, Service.poll_swarm_aux, RawSwarm.dequeue] using hrem h1
  · intro h1
    simpa [Service.poll_swarm, Service.poll_swarm_aux, RawSwarm.dequeue] using hrem h1
  · intro h1
    simpa [drop_node_connected_nodes] using hrem h1
  · intro h
    have hid := mapRemove_of_lookup_none s.connected_nodes p h
    refine ⟨?_, ?_, ?_⟩
    · simpa [Service.poll_swarm, Service.poll_swarm_aux, RawSwarm.dequeue] using hid
    · simpa [Service.poll_swarm, Service.poll_swarm_aux, RawSwarm.dequeue] using hid
    · simpa [drop_node_connected_nodes] using hid

/-- Witness for C2 at a concrete state: connecting absent peer 2 grows the
registry from one entry to two, closing registered peer 1 shrinks it back,
and dropping absent peer 9 leaves it untouched. -/
theorem c2_registry_size_witness :
    (Service.poll_swarm { sampleService with swarm :=
        { sampleService.swarm with pending :=
            [RawSwarmEvent.Connected 2 (ConnectedPoint.Listener [MProtocol.Other 8])] } }).2.connected_nodes.length
      = sampleService.connected_nodes.length + 1
  ∧ (Service.poll_swarm { sampleService with swarm :=
        { sampleService.swarm with pending :=
            [RawSwarmEvent.NodeClosed 1] } }).2.connected_nodes.length + 1
      = sampleService.connected_nodes.length
  ∧ (Service.drop_node sampleService 9).connected_nodes = sampleService.connected_nodes :=
  ⟨((c2_registry_size sampleService 2 (ConnectedPoint.Listener [MProtocol.Other 8]) 0).1 rfl).1,
   ((c2_registry_size sampleService 1 (ConnectedPoint.Listener [MProtocol.Other 8]) 0).2.1 rfl).1,
   ((c2_registry_size sampleService 9 (ConnectedPoint.Listener [MProtocol.Other 8]) 0).2.2.2.2 rfl).2.2⟩

theorem mapLookup_mapRemove_self (m : List (PeerId × NodeInfo)) (k : PeerId) :
    mapLookup (mapRemove m k) k = none := by
  induction m with
  | nil => rfl
  | cons e rest ih =>
      by_cases h : e.1 = k <;> simp [mapRemove, mapLookup, h, ih]

theorem natLoop_handle (l : List Multiaddr) : ∀ s : Service,
    (s.natLoop l).service_handle = s.service_handle
    ∧ (s.natLoop l).connected_nodes = s.connected_nodes := by
  induction l with
  | nil => intro s; simp [Service.natLoop]
  | cons a rest ih =>
      intro s
      by_cases h : addrMem s.listening_address a = true
      · simpa [Service.natLoop, h] using ih s
      · rw [Bool.not_eq_true] at h
        simpa [Service.natLoop, h] using
          ih { s with listening_address := s.listening_address ++ [a] }

theorem natLoop_listening (l : List Multiaddr) : ∀ s : Service,
    ∃ t, (s.natLoop l).listening_address = s.listening_address ++ t
      ∧ (∀ a ∈ t, a ∉ s.listening_address)
      ∧ (s.listening_address.Nodup → (s.listening_address ++ t).Nodup) := by
  induction l with
  | nil => intro s; exact ⟨[], by simp [Service.natLoop]⟩
  | cons a rest ih =>
      intro s
      by_cases h : addrMem s.listening_address a = true
      · obtain ⟨t, h1, h2, h3⟩ := ih s
        exact ⟨t, by simpa [Service.natLoop, h] using h1, h2, h3⟩
      · rw [Bool.not_eq_true] at h
        have hna : a ∉ s.listening_address := by
          intro hmem
          rw [← addrMem_iff] at hmem
          simp [hmem] at h
        obtain ⟨t, h1, h2, h3⟩ := ih { s with listening_address := s.listening_address ++ [a] }
        refine ⟨a :: t, ?_, ?_, ?_⟩
        · simpa [Service.natLoop, h] using h1
        · intro b hb
          rcases List.mem_cons.mp hb with hb | hb
          · exact hb ▸ hna
          · have := h2 b hb
            simp at this
            exact this.1
        · intro hnd
          have : (s.listening_address ++ [a]).Nodup := by
            simp [List.nodup_append, hnd, hna]
          simpa using h3 this

theorem event_handle_frame (s : Service) (p : PeerId) (ev : CITAOutEvent) :
    (s.event_handle p ev).2.service_handle = s.service_handle
    ∧ (s.event_handle p ev).2.swarm = s.swarm
    ∧ ∃ t, (s.event_handle p ev).2.listening_address = s.listening_address ++ t := by
  cases ev with
  | IdentificationRequest token =>
      refine ⟨?_, ?_, ⟨[], ?_⟩⟩ <;>
        simp [Service.event_handle, Service.respond_to_identify_request] <;>
        cases mapLookup s.connected_nodes p <;> simp
  | Identified info observed =>
      have h1 := natLoop_handle (s.swarm.nat observed) s
      have h2 := natLoop_listening (s.swarm.nat observed) s
      have hsw : ∀ l, ∀ s1 : Service, (Service.natLoop s1 l).swarm = s1.swarm := by
        intro l
        induction l with
        | nil => intro s1; simp [Service.natLoop]
        | cons a rest ih =>
            intro s1
            by_cases h : addrMem s1.listening_address a = true
            · simpa [Service.natLoop, h] using ih s1
            · rw [Bool.not_eq_true] at h
              simpa [Service.natLoop, h] using
                ih { s1 with listening_address := s1.listening_address ++ [a] }
      refine ⟨?_, ?_, ?_⟩
      · simpa [Service.event_handle, Service.add_observed_addr] using h1.1
      · simpa [Service.event_handle, Service.add_observed_addr] using
          hsw (s.swarm.nat observed) s
      · obtain ⟨t, h2a, _, _⟩ := h2
        exact ⟨t, by simpa [Service.event_handle, Service.add_observed_addr] using h2a⟩
  | CustomProtocolOpen protocol version => exact ⟨rfl, rfl, ⟨[], by simp [Service.event_handle]⟩⟩
  | CustomMessage protocol data => exact ⟨rfl, rfl, ⟨[], by simp [Service.event_handle]⟩⟩
  | CustomProtocolClosed protocol => exact ⟨rfl, rfl, ⟨[], by simp [Service.event_handle]⟩⟩
  | Useless => exact ⟨rfl, rfl, ⟨[], by simp [Service.event_handle]⟩⟩
  | PingStart => exact ⟨rfl, rfl, ⟨[], by simp [Service.event_handle]⟩⟩
  | PingSuccess time => exact ⟨rfl, rfl, ⟨[], by simp [Service.event_handle]⟩⟩

theorem poll_swarm_aux_frame (q : List RawSwarmEvent) : ∀ s : Service,
    (Service.poll_swarm_aux s q).2.service_handle = s.service_handle
    ∧ ∃ t, (Service.poll_swarm_aux s q).2.listening_address = s.listening_address ++ t := by
  induction q with
  | nil =>
      intro s
      exact ⟨rfl, [], (List.append_nil _).symm⟩
  | cons ev rest ih =>
      intro s
      cases ev with
      | NodeEvent p e =>
          obtain ⟨hh, hsw, t1, hl⟩ :=
            event_handle_frame
              { s with swarm := s.swarm.dequeue (RawSwarmEvent.NodeEvent p e) rest } p e
          rcases hev : Service.event_handle
              { s with swarm := s.swarm.dequeue (RawSwarmEvent.NodeEvent p e) rest } p e
            with ⟨o, s2⟩
          rw [hev] at hh hl
          simp only [RawSwarm.dequeue] at hh hl hev
          cases o with
          | some out =>
              constructor
              · simp only [Service.poll_swarm_aux, RawSwarm.dequeue]
                rw [hev]
                simpa using hh
              · refine ⟨t1, ?_⟩
                simp only [Service.poll_swarm_aux, RawSwarm.dequeue]
                rw [hev]
                simpa using hl
          | none =>
              obtain ⟨ha2, t2, hl2⟩ := ih s2
              constructor
              · simp only [Service.poll_swarm_aux, RawSwarm.dequeue]
                rw [hev]
                simpa [ha2] using hh
              · refine ⟨t1 ++ t2, ?_⟩
                simp only [Service.poll_swarm_aux, RawSwarm.dequeue]
                rw [hev]
                simp only [hl2, hl, List.append_assoc]
      | Connected p cp =>
          simpa [Service.poll_swarm_aux, RawSwarm.dequeue] using ih _
      | NodeClosed p =>
          exact ⟨rfl, [], (List.append_nil _).symm⟩
      | NodeError p err =>
          exact ⟨rfl, [], (List.append_nil _).symm⟩
      | DialError a err =>
          simpa [Service.poll_swarm_aux, RawSwarm.dequeue] using ih _
      | UnknownPeerDialError a err =>
          simpa [Service.poll_swarm_aux, RawSwarm.dequeue] using ih _
      | IncomingConnection a =>
          simpa [Service.poll_swarm_aux, RawSwarm.dequeue] using ih _
      | IncomingConnectionError a err =>
          simpa [Service.poll_swarm_aux, RawSwarm.dequeue] using ih _
      | Replaced p =>
          cases hlk : mapLookup
              ({ s with swarm := s.swarm.dequeue (RawSwarmEvent.Replaced p) rest }).connected_nodes p with
          | some info =>
              cases hep : info.endpoint <;>
                simpa [Service.poll_swarm_aux, RawSwarm.dequeue, hlk, hep] using ih _
          | none =>
              simpa [Service.poll_swarm_aux, RawSwarm.dequeue, hlk] using ih _
      | ListenerClosed a =>
          simpa [Service.poll_swarm_aux, RawSwarm.dequeue] using ih _

theorem poll_swarm_aux_keepalive (q : List RawSwarmEvent) : ∀ s : Service,
    (∀ e ∈ q, isKeepAlive e = true) → (Service.poll_swarm_aux s q).1 = none := by
  induction q with
  | nil => intro s _; rfl
  | cons ev rest ih =>
      intro s hq
      have hev := hq ev (List.mem_cons_self ev rest)
      have hrest : ∀ e ∈ rest, isKeepAlive e = true := fun e he =>
        hq e (List.mem_cons_of_mem _ he)
      cases ev
      case NodeEvent p e =>
        cases e
        case PingStart =>
          simpa [Service.poll_swarm_aux, Service.event_handle] using ih _ hrest
        case PingSuccess t =>
          simpa [Service.poll_swarm_aux, Service.event_handle] using ih _ hrest
        all_goals simp [isKeepAlive] at hev
      all_goals simp [isKeepAlive] at hev

theorem drop_node_frame (s : Service) (p : PeerId) :
    (s.drop_node p).service_handle = s.service_handle
    ∧ (s.drop_node p).listening_address = s.listening_address := by
  by_cases h : peersContains s.swarm.connected p = true
  · simp [Service.drop_node, h]
  · rw [Bool.not_eq_true] at h
    simp [Service.drop_node, h]

theorem send_custom_message_frame (s : Service) (p : PeerId) (protocol : Nat)
    (data : Payload) :
    (s.send_custom_message p protocol data).service_handle = s.service_handle
    ∧ (s.send_custom_message p protocol data).listening_address = s.listening_address := by
  by_cases h : peersContains s.swarm.connected p = true
  · simp [Service.send_custom_message, h, RawSwarm.send_event]
  · rw [Bool.not_eq_true] at h
    simp [Service.send_custom_message, h]

theorem dialLoop_listening (addrs : List Multiaddr) : ∀ s : Service,
    (s.dialLoop addrs).listening_address = s.listening_address := by
  induction addrs with
  | nil => intro s; simp [Service.dialLoop]
  | cons a rest ih =>
      intro s
      by_cases h : s.swarm.dialFail a = true
      · simpa [Service.dialLoop, RawSwarm.dial, h] using ih _
      · rw [Bool.not_eq_true] at h
        simpa [Service.dialLoop, RawSwarm.dial, h] using ih _

theorem listenLoop_frame (addrs : List Multiaddr) : ∀ s : Service,
    (s.listenLoop addrs).service_handle = s.service_handle
    ∧ ∃ t, (s.listenLoop addrs).listening_address = s.listening_address ++ t := by
  induction addrs with
  | nil => intro s; exact ⟨rfl, [], (List.append_nil _).symm⟩
  | cons a rest ih =>
      intro s
      cases hl : s.swarm.listenResult a with
      | some bound =>
          obtain ⟨hh, t, ht⟩ := ih
            { s with swarm := { s.swarm with listeners := s.swarm.listeners ++ [bound] }
                   , listening_address := s.listening_address ++ [bound] }
          constructor
          · simpa [Service.listenLoop, RawSwarm.listen_on, hl] using hh
          · refine ⟨bound :: t, ?_⟩
            simp only [Service.listenLoop, RawSwarm.listen_on, hl]
            simpa [List.append_assoc] using ht
      | none =>
          obtain ⟨hh, t, ht⟩ := ih s
          constructor
          · simpa [Service.listenLoop, RawSwarm.listen_on, hl] using hh
          · exact ⟨t, by simpa [Service.listenLoop, RawSwarm.listen_on, hl] using ht⟩

theorem disconnectLoop_frame (ids : List PeerId) : ∀ s : Service,
    (s.disconnectLoop ids).service_handle = s.service_handle
    ∧ (s.disconnectLoop ids).listening_address = s.listening_address := by
  induction ids with
  | nil => intro s; exact ⟨rfl, rfl⟩
  | cons i rest ih =>
      intro s
      obtain ⟨h1, h2⟩ := ih (s.drop_node i)
      obtain ⟨h3, h4⟩ := drop_node_frame s i
      constructor
      · simpa [Service.disconnectLoop] using h1.trans h3
      · simpa [Service.disconnectLoop] using h2.trans h4

theorem sendLoop_frame (ms : List (Option PeerId × Nat × Payload)) : ∀ s : Service,
    (s.sendLoop ms).service_handle = s.service_handle
    ∧ (s.sendLoop ms).listening_address = s.listening_address := by
  induction ms with
  | nil => intro s; exact ⟨rfl, rfl⟩
  | cons m rest ih =>
      intro s
      rcases m with ⟨oid, protocol, data⟩
      cases oid with
      | some id =>
          obtain ⟨h1, h2⟩ := ih (s.send_custom_message id protocol data)
          obtain ⟨h3, h4⟩ := send_custom_message_frame s id protocol data
          constructor
          · simpa [Service.sendLoop] using h1.trans h3
          · simpa [Service.sendLoop] using h2.trans h4
      | none =>
          obtain ⟨h1, h2⟩ := ih (s.broadcast protocol data)
          constructor
          · simpa [Service.sendLoop, Service.broadcast, RawSwarm.broadcast_event] using h1
          · simpa [Service.sendLoop, Service.broadcast, RawSwarm.broadcast_event] using h2

theorem handle_hook_frame (s : Service) :
    (s.handle_hook).service_handle.out = s.service_handle.out
    ∧ ∃ t, (s.handle_hook).listening_address = s.listening_address ++ t := by
  simp only [Service.handle_hook]
  obtain ⟨hd_nc, hd_cn, hd_sh⟩ := dialLoop_spec s.service_handle.dialers
    { s with service_handle := { s.service_handle with dialers := [] } }
  have hd_l := dialLoop_listening s.service_handle.dialers
    { s with service_handle := { s.service_handle with dialers := [] } }
  set s2 := Service.dialLoop
    { s with service_handle := { s.service_handle with dialers := [] } }
    s.service_handle.dialers with hs2
  obtain ⟨hl_sh, t1, hl_l⟩ := listenLoop_frame s2.service_handle.listens
    { s2 with service_handle := { s2.service_handle with listens := [] } }
  set s4 := Service.listenLoop
    { s2 with service_handle := { s2.service_handle with listens := [] } }
    s2.service_handle.listens with hs4
  obtain ⟨hq_sh, hq_l⟩ := disconnectLoop_frame s4.service_handle.disconnects
    { s4 with service_handle := { s4.service_handle with disconnects := [] } }
  set s6 := Service.disconnectLoop
    { s4 with service_handle := { s4.service_handle with disconnects := [] } }
    s4.service_handle.disconnects with hs6
  obtain ⟨hm_sh, hm_l⟩ := sendLoop_frame s6.service_handle.sends
    { s6 with service_handle := { s6.service_handle with sends := [] } }
  set s8 := Service.sendLoop
    { s6 with service_handle := { s6.service_handle with sends := [] } }
    s6.service_handle.sends with hs8
  constructor
  · rw [hm_sh, hq_sh, hl_sh]
    simp [hd_sh]
  · refine ⟨t1, ?_⟩
    rw [hm_l, hq_l, hl_l]
    simp [hd_l]

/-- Claim C1: per poll at most one application event reaches the handle
sink before control returns: if the swarm loop yields a translated event,
exactly that one event is delivered and the poll reports progress; if the
loop yields nothing — in particular when every pending raw event is a
keep-alive ping start/success — nothing is delivered and the poll reports
no progress. -/
theorem c1_one_event_per_poll (s : Service) :
    (∀ e s1, s.poll_swarm = (some e, s1) →
       (s.poll.1 = true
        ∧ s.poll.2.service_handle.out = s.service_handle.out ++ [some e]))
  ∧ (∀ s1, s.poll_swarm = (none, s1) →
       (s.poll.1 = false
        ∧ s.poll.2.service_handle.out = s.service_handle.out))
  ∧ ((∀ e ∈ s.swarm.pending, isKeepAlive e = true) →
       (s.poll.1 = false
        ∧ s.poll.2.service_handle.out = s.service_handle.out)) := by
  have hframe := poll_swarm_aux_frame s.swarm.pending s
  have part2 : ∀ s1, s.poll_swarm = (none, s1) →
      (s.poll.1 = false ∧ s.poll.2.service_handle.out = s.service_handle.out) := by
    intro s1 h
    have hsh : s1.service_handle = s.service_handle := by
      have h1 := hframe.1
      rw [show Service.poll_swarm_aux s s.swarm.pending = (none, s1) from h] at h1
      exact h1
    constructor
    · simp [Service.poll, h]
    · simp [Service.poll, h]
      rw [(handle_hook_frame s1).1, hsh]
  refine ⟨?_, part2, ?_⟩
  · intro e s1 h
    have hsh : s1.service_handle = s.service_handle := by
      have h1 := hframe.1
      rw [show Service.poll_swarm_aux s s.swarm.pending = (some e, s1) from h] at h1
      exact h1
    constructor
    · simp [Service.poll, h]
    · simp [Service.poll, h, Handle.out_event]
      rw [hsh]
  · intro hka
    rcases hps : s.poll_swarm with ⟨o, s1⟩
    have ho : o = none := by
      have h1 := poll_swarm_aux_keepalive s.swarm.pending s hka
      rw [show Service.poll_swarm_aux s s.swarm.pending = (o, s1) from hps] at h1
      exact h1
    exact part2 s1 (by rw [hps, ho])

/-- Witness for C1 at concrete states: a pending custom message yields
exactly that one delivered event with progress; a pending keep-alive ping
yields no delivery and no progress. -/
theorem c1_one_event_per_poll_witness :
    ((Service.poll { sampleService with swarm := { sampleSwarm with pending :=
        [RawSwarmEvent.NodeEvent 1 (CITAOutEvent.CustomMessage 7 [1, 2, 3])] } }).1 = true
     ∧ (Service.poll { sampleService with swarm := { sampleSwarm with pending :=
          [RawSwarmEvent.NodeEvent 1 (CITAOutEvent.CustomMessage 7 [1, 2, 3])] } }).2.service_handle.out
        = { sampleService with swarm := { sampleSwarm with pending :=
              [RawSwarmEvent.NodeEvent 1 (CITAOutEvent.CustomMessage 7 [1, 2, 3])] } }.service_handle.out
          ++ [some (ServiceEvent.CustomMessage 1 7 [1, 2, 3])])
  ∧ ((Service.poll { sampleService with swarm := { sampleSwarm with pending :=
        [RawSwarmEvent.NodeEvent 1 CITAOutEvent.PingStart] } }).1 = false
     ∧ (Service.poll { sampleService with swarm := { sampleSwarm with pending :=
          [RawSwarmEvent.NodeEvent 1 CITAOutEvent.PingStart] } }).2.service_handle.out
        = { sampleService with swarm := { sampleSwarm with pending :=
              [RawSwarmEvent.NodeEvent 1 CITAOutEvent.PingStart] } }.service_handle.out) :=
  ⟨(c1_one_event_per_poll _).1 (ServiceEvent.CustomMessage 1 7 [1, 2, 3]) _ rfl,
   (c1_one_event_per_poll _).2.2 (by decide)⟩

/-- Claim C3: each disconnect path — raw closed event, raw error event,
explicit drop — yields exactly one `NodeClosed` application event for the
peer and removes its registry entry: processing a pending raw closed or
error event delivers exactly one `NodeClosed` and empties the queue, and
an explicit drop of a live peer removes the entry at once, leaves exactly
one closure notification pending, and the following poll delivers exactly
one `NodeClosed` with nothing further pending. -/
theorem c3_terminal_events (s : Service) (p : PeerId) (err : Nat) :
    ((Service.poll { s with swarm :=
        { s.swarm with pending := [RawSwarmEvent.NodeClosed p] } }).1 = true
     ∧ (Service.poll { s with swarm :=
          { s.swarm with pending := [RawSwarmEvent.NodeClosed p] } }).2.service_handle.out
         = s.service_handle.out ++ [some (ServiceEvent.NodeClosed p)]
     ∧ mapLookup (Service.poll { s with swarm :=
          { s.swarm with pending := [RawSwarmEvent.NodeClosed p] } }).2.connected_nodes p = none
     ∧ (Service.poll { s with swarm :=
          { s.swarm with pending := [RawSwarmEvent.NodeClosed p] } }).2.swarm.pending = [])
  ∧ ((Service.poll { s with swarm :=
        { s.swarm with pending := [RawSwarmEvent.NodeError p err] } }).1 = true
     ∧ (Service.poll { s with swarm :=
          { s.swarm with pending := [RawSwarmEvent.NodeError p err] } }).2.service_handle.out
         = s.service_handle.out ++ [some (ServiceEvent.NodeClosed p)]
     ∧ mapLookup (Service.poll { s with swarm :=
          { s.swarm with pending := [RawSwarmEvent.NodeError p err] } }).2.connected_nodes p = none
     ∧ (Service.poll { s with swarm :=
          { s.swarm with pending := [RawSwarmEvent.NodeError p err] } }).2.swarm.pending = [])
  ∧ (peersContains s.swarm.connected p = true →
      (mapLookup (Service.drop_node { s with swarm :=
           { s.swarm with pending := [] } } p).connected_nodes p = none
       ∧ (Service.drop_node { s with swarm :=
            { s.swarm with pending := [] } } p).swarm.pending = [RawSwarmEvent.NodeClosed p]
       ∧ (Service.poll (Service.drop_node { s with swarm :=
            { s.swarm with pending := [] } } p)).1 = true
       ∧ (Service.poll (Service.drop_node { s with swarm :=
            { s.swarm with pending := [] } } p)).2.service_handle.out
           = s.service_handle.out ++ [some (ServiceEvent.NodeClosed p)]
       ∧ (Service.poll (Service.drop_node { s with swarm :=
            { s.swarm with pending := [] } } p)).2.swarm.pending = [])) := by
  refine ⟨⟨rfl, rfl, mapLookup_mapRemove_self s.connected_nodes p, rfl⟩,
          ⟨rfl, rfl, mapLookup_mapRemove_self s.connected_nodes p, rfl⟩, ?_⟩
  intro h
  refine ⟨?_, ?_, ?_, ?_, ?_⟩
  · rw [drop_node_connected_nodes]
    exact mapLookup_mapRemove_self _ _
  · simp [Service.drop_node, h, RawSwarm.close]
  · simp [Service.drop_node, h, RawSwarm.close, Service.poll, Service.poll_swarm,
      Service.poll_swarm_aux, RawSwarm.dequeue]
  · simp [Service.drop_node, h, RawSwarm.close, Service.poll, Service.poll_swarm,
      Service.poll_swarm_aux, RawSwarm.dequeue, Handle.out_event]
  · simp [Service.drop_node, h, RawSwarm.close, Service.poll, Service.poll_swarm,
      Service.poll_swarm_aux, RawSwarm.dequeue]

/-- Witness for C3 at a concrete state: explicit drop of the connected,
registered peer 1 removes its entry and the next poll delivers exactly one
`NodeClosed` event for it. -/
theorem c3_terminal_events_witness :
    mapLookup (Service.drop_node { sampleService with swarm :=
        { sampleService.swarm with pending := [] } } 1).connected_nodes 1 = none
  ∧ (Service.poll (Service.drop_node { sampleService with swarm :=
        { sampleService.swarm with pending := [] } } 1)).2.service_handle.out
      = sampleService.service_handle.out ++ [some (ServiceEvent.NodeClosed 1)] := by
  obtain ⟨h1, h2, h3, h4, h5⟩ := (c3_terminal_events sampleService 1 0).2.2 rfl
  exact ⟨h1, h4⟩

/-- Counterexample to claim C6 as stated: in `dupListenService` the
address `[Other 1]` is already structurally present in the listening
address set, yet the Listen-command path of `handle_hook` inserts it
again — the insertion neither checks nor skips present addresses, so the
set ends with a duplicate. -/
theorem c6_counterexample :
    addrMem dupListenService.listening_address [MProtocol.Other 1] = true
  ∧ (Service.handle_hook dupListenService).listening_address
      = [[MProtocol.Other 1], [MProtocol.Other 1]] :=
  ⟨rfl, rfl⟩

/-- Claim C6 as amended: only the NAT-observed-address path
(`add_observed_addr`) checks structural equality against existing entries
and skips addresses already present (so it adds only fresh addresses and
preserves freedom from duplicates); the Listen-command path appends each
successful bind result unconditionally; and no operation removes an
address — across `add_observed_addr`, `handle_hook` and a full poll the
listening-address set only grows by appending. -/
theorem c6_append_only (s : Service) (address : Multiaddr) :
    (∃ t, (s.add_observed_addr address).listening_address = s.listening_address ++ t
       ∧ (∀ a ∈ t, a ∉ s.listening_address)
       ∧ (s.listening_address.Nodup →
            (s.add_observed_addr address).listening_address.Nodup))
  ∧ (∃ t, (s.handle_hook).listening_address = s.listening_address ++ t)
  ∧ (∃ t, (s.poll).2.listening_address = s.listening_address ++ t) := by
  refine ⟨?_, (handle_hook_frame s).2, ?_⟩
  · obtain ⟨t, h1, h2, h3⟩ := natLoop_listening (s.swarm.nat address) s
    refine ⟨t, h1, h2, fun hnd => ?_⟩
    have h4 := h3 hnd
    rw [← h1] at h4
    exact h4
  · rcases hps : s.poll_swarm with ⟨o, s1⟩
    have hl := (poll_swarm_aux_frame s.swarm.pending s).2
    rw [show Service.poll_swarm_aux s s.swarm.pending = (o, s1) from hps] at hl
    obtain ⟨t1, hl⟩ := hl
    cases o with
    | some e =>
        refine ⟨t1, ?_⟩
        simp [Service.poll, hps]
        exact hl
    | none =>
        obtain ⟨t2, h2⟩ := (handle_hook_frame s1).2
        refine ⟨t1 ++ t2, ?_⟩
        simp [Service.poll, hps]
        rw [h2, hl, List.append_assoc]

/-- Witness for the amended C6 at a concrete state: folding in the
observed address `[Other 2]` appends it and keeps the set duplicate
free. -/
theorem c6_append_only_witness :
    ∃ t, (Service.add_observed_addr sampleService [MProtocol.Other 2]).listening_address
        = sampleService.listening_address ++ t
      ∧ (Service.add_observed_addr sampleService [MProtocol.Other 2]).listening_address.Nodup := by
  obtain ⟨t, h1, h2, h3⟩ := (c6_append_only sampleService [MProtocol.Other 2]).1
  exact ⟨t, h1, h3 (by decide)⟩
